import Mathlib

/-!
Verification of the Privacy-Focused QR Code Generator.

The repository's core is `js/main.js` (the file holds two closely related
revisions of the module, referred to below as the first and the second
`generate`/`setupLogoUpload`/... where they differ), plus the network-monitor
and theme-manager modules. This development embeds the content encoder, the
raster-size computation, the render cache with its FIFO eviction, the
configuration hash, the generation orchestrator and the debounce logic as
executable Lean definitions, and proves the stated properties about them.

External collaborators (the DOM, DOMPurify, the `qrcode` matrix library,
`encodeURIComponent`) are modelled as inputs: encoder functions take the
already-sanitized field values, the orchestrator takes the outcome of the
matrix-generation/render step as an `Except`, and `geoContent` takes the
URI-escaping function as an argument.
-/

namespace QR

/-! ## Content encoder (js/main.js `esc`, `getContent`) -/

/-- Characters the micro-format escaper targets: the character class of the
source regex in `esc` is backslash, semicolon, comma, colon, double quote and
single quote. -/
def escSpecial (c : Char) : Bool :=
  c = '\\' || c = ';' || c = ',' || c = ':' || c = '"' || c = Char.ofNat 39

/-- One left-to-right pass over the characters, the semantics of the global
regex replace in the source (each matched character is replaced by a backslash
followed by itself; the scan resumes after the inserted pair, so an inserted
backslash is never rescanned). -/
def escList : List Char → List Char
  | [] => []
  | c :: cs => if escSpecial c then '\\' :: c :: escList cs else c :: escList cs

/-- Micro-format escaping from main.js: prefix each special character with a
backslash in a single global pass. -/
def esc (s : String) : String := String.mk (escList s.data)

/-- WiFi template encoding (main.js `getContent`, case 'wifi'): given the
sanitized ssid, password and encryption values and the hidden checkbox. The
empty ssid falls back to the default 'WiFi'; the password segment is appended
only when the password is non-empty and the encryption is not 'nopass'. -/
def wifiContent (ssid pass enc : String) (hidden : Bool) : String :=
  let ssid := if ssid = "" then "WiFi" else ssid
  let s := "WIFI:T:" ++ enc ++ ";S:" ++ esc ssid ++ ";"
  let s := if pass ≠ "" ∧ enc ≠ "nopass" then s ++ "P:" ++ esc pass ++ ";" else s
  let s := if hidden then s ++ "H:true;" else s
  s ++ ";"

/-- Geo template encoding (main.js `getContent`, case 'geo'): given the
sanitized latitude, longitude, altitude and query values. The browser builtin
`encodeURIComponent` is an external collaborator, passed as an argument. -/
def geoContent (encodeURIComponent : String → String)
    (lat lng alt query : String) : String :=
  if lat = "" ∨ lng = "" then "geo:0,0"
  else
    let uri := "geo:" ++ lat ++ "," ++ lng
    let uri := if alt ≠ "" then uri ++ "," ++ alt else uri
    let uri := if query ≠ "" then uri ++ "?q=" ++ encodeURIComponent query else uri
    uri

/-! ## Raster sizing (both `generate` bodies compute cell and actual alike) -/

/-- Per-module pixel size: `Math.floor(size / (count + margin * 2))` on
non-negative integers is truncating natural division. -/
def cellSize (size count margin : Nat) : Nat := size / (count + margin * 2)

/-- Side of the output canvas: `cell * (count + margin * 2)`. -/
def actualSide (size count margin : Nat) : Nat :=
  cellSize size count margin * (count + margin * 2)

/-- A canvas is its pixel dimensions; `cvs.width = cvs.height = actual`. -/
structure Canvas where
  width : Nat
  height : Nat
deriving DecidableEq

/-- The canvas created by `generate` for the raster render. -/
def createCanvas (size count margin : Nat) : Canvas :=
  { width := actualSide size count margin, height := actualSide size count margin }

/-! ## Render cache (JS `Map` with insertion order, `MAX_CACHE_SIZE` = 10) -/

def MAX_CACHE_SIZE : Nat := 10

/-- A JS `Map` keyed by config-hash strings, as its insertion-ordered entry
list. `Map.set` of a fresh key appends; `get`/`has` do not reorder. -/
abbrev Cache := List (String × Canvas)

/-- `map.has(k)`. -/
def mapHas (k : String) (m : Cache) : Bool := m.any (fun p => p.1 == k)

/-- `map.get(k)` (the value, when the key is present). -/
def mapGet (k : String) (m : Cache) : Option Canvas :=
  (m.find? (fun p => p.1 == k)).map (fun p => p.2)

/-- `map.set(k, v)`: update in place when the key exists (insertion order
kept), else append at the end. -/
def mapSet (k : String) (v : Canvas) (m : Cache) : Cache :=
  if mapHas k m then m.map (fun p => if p.1 == k then (k, v) else p)
  else m ++ [(k, v)]

/-- `map.delete(k)`: remove the entry with that key. -/
def mapDelete (k : String) (m : Cache) : Cache := m.eraseP (fun p => p.1 == k)

/-- `map.keys().next().value`: the first key in insertion order. -/
def firstKey (m : Cache) : Option String := m.head?.map (fun p => p.1)

/-- The miss-path cache update shared by both `generate` revisions:
`cache.set(hash, canvas)` followed by FIFO eviction of the first key when the
size exceeds `MAX_CACHE_SIZE`. -/
def cachePut (k : String) (v : Canvas) (m : Cache) : Cache :=
  let m1 := mapSet k v m
  if MAX_CACHE_SIZE < m1.length then
    match firstKey m1 with
    | some fk => mapDelete fk m1
    | none => m1
  else m1

/-- Eviction as the first `generate` performs it (main.js lines 699-710): the
canvas of the oldest entry has `width` and `height` set to 0 before the entry
is deleted. The first component is the canvas object at the moment its cache
reference is dropped (`none` when nothing is evicted). -/
def cachePutRelease (k : String) (v : Canvas) (m : Cache) : Option Canvas × Cache :=
  let m1 := mapSet k v m
  if MAX_CACHE_SIZE < m1.length then
    match firstKey m1 with
    | some fk =>
        ((mapGet fk m1).map (fun c => { c with width := 0, height := 0 }),
         mapDelete fk m1)
    | none => (none, m1)
  else (none, m1)

/-- Eviction as the second `generate` performs it (main.js lines 1487-1491):
`state.cache.delete(firstKey)` with no zeroing of the evicted canvas. -/
def cachePutDrop (k : String) (v : Canvas) (m : Cache) : Option Canvas × Cache :=
  let m1 := mapSet k v m
  if MAX_CACHE_SIZE < m1.length then
    match firstKey m1 with
    | some fk => (mapGet fk m1, mapDelete fk m1)
    | none => (none, m1)
  else (none, m1)

/-! ## Configuration hash (both `getConfigHash` bodies)

The hash is `JSON.stringify` of a fixed-shape object whose field values are
the raw DOM `.value` strings plus `'present'`/`'absent'` for the logo. We
embed the JSON string-literal encoding character by character, per the JSON
spec as `JSON.stringify` implements it (quote and backslash escaped, the named
control escapes, remaining control characters as lowercase `\u00xx`). -/

/-- Lowercase hexadecimal digit, as `JSON.stringify` prints `\u` escapes. -/
def hexDigitChar (n : Nat) : Char :=
  if n < 10 then Char.ofNat (48 + n) else Char.ofNat (87 + n)

/-- JSON escape of one character inside a string literal. -/
def jsonEscapeChar (c : Char) : List Char :=
  if c = '"' then ['\\', '"']
  else if c = '\\' then ['\\', '\\']
  else if c = '\n' then ['\\', 'n']
  else if c = '\r' then ['\\', 'r']
  else if c = '\t' then ['\\', 't']
  else if c = Char.ofNat 8 then ['\\', 'b']
  else if c = Char.ofNat 12 then ['\\', 'f']
  else if c.toNat < 32 then
    ['\\', 'u', '0', '0', hexDigitChar (c.toNat / 16), hexDigitChar (c.toNat % 16)]
  else [c]

/-- JSON encoding of a string body (no surrounding quotes yet). -/
def jsonEncodeList (s : List Char) : List Char := (s.map jsonEscapeChar).flatten

/-- A JSON string literal: quoted, body escaped. -/
def jsonQuote (s : String) : String :=
  "\"" ++ String.mk (jsonEncodeList s.data) ++ "\""

/-- The uploaded logo image, an external decoded asset; only its presence
enters the config hash, never its pixels. -/
structure Image where
  src : String
  naturalWidth : Nat
  naturalHeight : Nat
deriving DecidableEq

/-- The immutable generation-config snapshot `getConfigHash` reads: the raw
`.value` strings of the inputs plus the logo slot of the application state. -/
structure ConfigFields where
  content : String
  size : String
  fg : String
  bg : String
  ec : String
  margin : String
  style : String
  logoPercent : String
  logo : Option Image
deriving DecidableEq

/-- `getConfigHash` from main.js: `JSON.stringify` of the config object with
the fixed field order content, size, fg, bg, ec, margin, style, logoPercent,
logo, the last being `'present'` or `'absent'`. -/
def getConfigHash (f : ConfigFields) : String :=
  "\x7b\"content\":" ++ jsonQuote f.content ++
  ",\"size\":" ++ jsonQuote f.size ++
  ",\"fg\":" ++ jsonQuote f.fg ++
  ",\"bg\":" ++ jsonQuote f.bg ++
  ",\"ec\":" ++ jsonQuote f.ec ++
  ",\"margin\":" ++ jsonQuote f.margin ++
  ",\"style\":" ++ jsonQuote f.style ++
  ",\"logoPercent\":" ++ jsonQuote f.logoPercent ++
  ",\"logo\":" ++ jsonQuote (if f.logo.isSome then "present" else "absent") ++
  "\x7d"

/-! ## Generation orchestrator (both `generate` bodies) -/

/-- The user-visible status signal `showStatus` displays. -/
inductive Status where
  | idle
  | success
  | cachedSuccess
  | error (msg : String)
deriving DecidableEq

/-- The module-level `state` slice the orchestrator touches. The DOM field
values and `state.logo` are snapshotted in `fields`. -/
structure AppState where
  fields : ConfigFields
  cache : Cache
  generating : Bool
  status : Status
  displayed : Option Canvas
deriving DecidableEq

/-- The cleared design settings `clearAllSettings` writes back (the content
fields of the active template are emptied; the design inputs get their
defaults), which also match the document's initial input values. -/
def clearedFields : ConfigFields :=
  { content := "", size := "350", fg := "#000000", bg := "#ffffff",
    ec := "M", margin := "2", style := "square", logoPercent := "20",
    logo := none }

/-- The initial `state` object: no canvas, no logo, not generating, empty
cache. -/
def initState : AppState :=
  { fields := clearedFields, cache := [], generating := false,
    status := Status.idle, displayed := none }

/-- The orchestrator `generate`. The guarded body (content encoding, the
external `qrcode` matrix generation and the canvas render) sits inside
`try`/`catch`/`finally`; its outcome is the external argument `render`.
Control flow from the source: re-entry guard on `state.generating`, cache
lookup by `getConfigHash`, on hit display the cached canvas, on miss run the
body, cache the result with FIFO eviction; the `catch` shows
`err.message || 'QR generation failed'` as an error status and the `finally`
clears `state.generating`. -/
def generate (render : Except String Canvas) (s : AppState) : AppState :=
  if s.generating then s
  else
    let h := getConfigHash s.fields
    if mapHas h s.cache then
      { s with displayed := mapGet h s.cache, status := Status.cachedSuccess }
    else
      match render with
      | Except.ok cvs =>
          { s with cache := cachePut h cvs s.cache,
                   displayed := some cvs,
                   status := Status.success,
                   generating := false }
      | Except.error msg =>
          { s with status := Status.error
                     (if msg = "" then "QR generation failed" else msg),
                   generating := false }

/-! ## Logo and clear-all operations (second revision of main.js) -/

/-- The logo-load handler of the second `setupLogoUpload` (main.js lines
1355-1368): store the image, force error correction to 'H', clear the render
cache, then schedule a regeneration. -/
def logoLoad (img : Image) (s : AppState) : AppState :=
  { s with fields := { s.fields with logo := some img, ec := "H" },
           cache := [] }

/-- The clear-logo button handler: drops the logo only; the cache is left
untouched. -/
def clearLogo (s : AppState) : AppState :=
  { s with fields := { s.fields with logo := none } }

/-- `clearAllSettings` (main.js lines 1789-1897): reset the inputs, drop the
logo and clear the render cache. -/
def clearAllSettings (s : AppState) : AppState :=
  { s with fields := clearedFields, cache := [] }

/-- Page-level teardown `cleanup` (first revision, main.js lines 53-119):
every cached canvas is disposed and the cache cleared, the logo dropped, the
displayed canvas disposed. -/
def cleanup (s : AppState) : AppState :=
  { s with cache := [],
           fields := { s.fields with logo := none },
           displayed := none }

/-! ## Debounce (`debouncedGenerate`, window `DEBOUNCE_DELAY` = 200ms)

Modelled as one pass over a time-ordered list of triggering input events,
each carrying the field values as of that event. `debouncedGenerate` clears
any pending timer and schedules a new one at event time + 200; a pending
timer whose deadline precedes the next event fires and calls `generate` with
the field values current at that moment. The returned list is the generation
calls, each with its time and the field snapshot it reads. -/

def DEBOUNCE_DELAY : Nat := 200

/-- Replay of the single-threaded timer semantics: `timer` is the pending
deadline (`state.debounceTimer`), `fields` the current input values. -/
def processEvents : Option Nat → ConfigFields → List (Nat × ConfigFields) →
    List (Nat × ConfigFields)
  | some t, fields, [] => [(t, fields)]
  | none, _, [] => []
  | some t, fields, (te, fe) :: rest =>
      if t ≤ te then
        (t, fields) :: processEvents (some (te + DEBOUNCE_DELAY)) fe rest
      else
        processEvents (some (te + DEBOUNCE_DELAY)) fe rest
  | none, _, (te, fe) :: rest =>
      processEvents (some (te + DEBOUNCE_DELAY)) fe rest

/-! ## Helper lemmas -/

theorem escList_eq_flatten (l : List Char) :
    escList l = (l.map (fun c => if escSpecial c then ['\\', c] else [c])).flatten := by
  induction l with
  | nil => rfl
  | cons c cs ih => cases h : escSpecial c <;> simp [escList, h, ih]

theorem escList_length (l : List Char) :
    (escList l).length = l.length + l.countP escSpecial := by
  induction l with
  | nil => rfl
  | cons c cs ih =>
      cases h : escSpecial c <;>
        simp [escList, h, ih, List.countP_cons] <;> omega

theorem escList_id (l : List Char) (h : ∀ c ∈ l, escSpecial c = false) :
    escList l = l := by
  induction l with
  | nil => rfl
  | cons c cs ih =>
      have hc := h c (List.mem_cons_self c cs)
      simp [escList, hc, ih fun x hx => h x (List.mem_cons_of_mem c hx)]

/-! ## C5 -/

/-- C5: for every size, module count and margin, the raster canvas is square
with side exactly `floor(size / (count + 2*margin)) * (count + 2*margin)`; at
size 400, count 21, margin 2 the cell is 16 and the side exactly 400; and the
side can fall strictly below the requested size (count 25 gives 377 < 400). -/
theorem c5_raster_side (size count margin : Nat) :
    (createCanvas size count margin).width = (createCanvas size count margin).height
    ∧ (createCanvas size count margin).width
        = size / (count + 2 * margin) * (count + 2 * margin)
    ∧ cellSize 400 21 2 = 16 ∧ actualSide 400 21 2 = 400
    ∧ actualSide 400 25 2 < 400 := by
  refine ⟨rfl, ?_, by decide, by decide, by decide⟩
  simp [createCanvas, actualSide, cellSize, Nat.mul_comm 2 margin]

/-! ## C6 -/

/-- C6: the WiFi template with ssid "Home", password "secret", encryption
'nopass', hidden false encodes exactly to `WIFI:T:nopass;S:Home;;`, and for
every field assignment with encryption 'nopass' the password segment is
omitted: the output equals the output for the empty password. -/
theorem c6_wifi_nopass :
    wifiContent "Home" "secret" "nopass" false = "WIFI:T:nopass;S:Home;;"
    ∧ ∀ ssid pass hidden,
        wifiContent ssid pass "nopass" hidden = wifiContent ssid "" "nopass" hidden := by
  refine ⟨by decide, fun ssid pass hidden => ?_⟩
  simp [wifiContent]

/-! ## C7 -/

/-- C7: the escaper expands the string character by character in one pass:
each special character (backslash, semicolon, comma, colon, double quote,
single quote) becomes a backslash followed by itself, every other character is
kept; hence the length grows by exactly the number of special occurrences (so
repeated occurrences are each escaped once, and no inserted backslash is
rescanned), and a string without special characters is unchanged. -/
theorem c7_esc_single_pass :
    (∀ s : String,
        (esc s).data
          = (s.data.map (fun c => if escSpecial c then ['\\', c] else [c])).flatten)
    ∧ (∀ s : String, (esc s).data.length = s.data.length + s.data.countP escSpecial)
    ∧ (∀ s : String, (∀ c ∈ s.data, escSpecial c = false) → esc s = s) :=
  ⟨fun s => escList_eq_flatten s.data,
   fun s => escList_length s.data,
   fun s h => String.ext (escList_id s.data h)⟩

/-- Witness for C7 at concrete inputs: 'ab' has no special characters and is
unchanged. -/
theorem c7_esc_single_pass_witness : esc "ab" = "ab" :=
  c7_esc_single_pass.2.2 "ab" (by decide)

/-! ## C10 -/

/-- C10: the geo template encodes to exactly `geo:0,0` whenever the latitude
or the longitude is empty, whatever the altitude and query hold; with both
present the coordinates are emitted, with altitude and query appended only
when non-empty. -/
theorem c10_geo_empty :
    (∀ (enc : String → String) lat lng alt query, lat = "" ∨ lng = "" →
        geoContent enc lat lng alt query = "geo:0,0")
    ∧ (∀ (enc : String → String) lat lng, lat ≠ "" → lng ≠ "" →
        geoContent enc lat lng "" "" = "geo:" ++ lat ++ "," ++ lng)
    ∧ (∀ (enc : String → String) lat lng alt query,
        lat ≠ "" → lng ≠ "" → alt ≠ "" → query ≠ "" →
        geoContent enc lat lng alt query
          = "geo:" ++ lat ++ "," ++ lng ++ "," ++ alt ++ "?q=" ++ enc query) := by
  refine ⟨fun enc lat lng alt query h => ?_,
          fun enc lat lng h1 h2 => ?_,
          fun enc lat lng alt query h1 h2 h3 h4 => ?_⟩
  · simp [geoContent, h]
  · simp [geoContent, h1, h2]
  · simp [geoContent, h1, h2, h3, h4]

/-- Witness for C10: an empty latitude with a non-empty longitude, altitude
and query still encodes to `geo:0,0`. -/
theorem c10_geo_empty_witness : geoContent id "" "5.1" "100" "home" = "geo:0,0" :=
  c10_geo_empty.1 id "" "5.1" "100" "home" (Or.inl rfl)

/-! ## C1: cache bound and FIFO eviction -/

theorem mapSet_length (k : String) (v : Canvas) (m : Cache) :
    (mapSet k v m).length = if mapHas k m then m.length else m.length + 1 := by
  by_cases h : mapHas k m <;> simp [mapSet, h]

theorem cachePut_def (k : String) (v : Canvas) (m : Cache) :
    cachePut k v m
      = if MAX_CACHE_SIZE < (mapSet k v m).length then
          match firstKey (mapSet k v m) with
          | some fk => mapDelete fk (mapSet k v m)
          | none => mapSet k v m
        else mapSet k v m := rfl

theorem cachePut_length_le (m : Cache) (k : String) (v : Canvas)
    (h : m.length ≤ MAX_CACHE_SIZE) : (cachePut k v m).length ≤ MAX_CACHE_SIZE := by
  rw [cachePut_def]
  have hle : (mapSet k v m).length ≤ m.length + 1 := by
    rw [mapSet_length]; by_cases hk : mapHas k m <;> simp [hk]
  by_cases hb : MAX_CACHE_SIZE < (mapSet k v m).length
  · simp only [hb, if_true]
    cases hm : mapSet k v m with
    | nil => simp [hm] at hb
    | cons a t =>
        have ht : t.length + 1 ≤ m.length + 1 := by
          have := hle; rw [hm] at this; simpa using this
        simp only [firstKey, List.head?_cons]
        simp [mapDelete, List.eraseP_cons_of_pos]
        omega
  · simp only [hb, if_false]
    exact Nat.not_lt.mp hb

theorem cachePut_overflow (m : Cache) (k : String) (v : Canvas)
    (hk : mapHas k m = false) (hlen : m.length = MAX_CACHE_SIZE) :
    cachePut k v m = m.tail ++ [(k, v)] := by
  rw [cachePut_def]
  have hset : mapSet k v m = m ++ [(k, v)] := by simp [mapSet, hk]
  rw [hset]
  have hlt : MAX_CACHE_SIZE < (m ++ [(k, v)]).length := by
    simp [hlen]
  simp only [hlt, if_true]
  cases m with
  | nil => simp [MAX_CACHE_SIZE] at hlen
  | cons a t =>
      simp [firstKey, mapDelete, List.eraseP_cons_of_pos]

theorem generate_hit_cache_eq (r : Except String Canvas) (s : AppState)
    (hg : s.generating = false)
    (hh : mapHas (getConfigHash s.fields) s.cache = true) :
    (generate r s).cache = s.cache := by
  simp [generate, hg, hh]

theorem cachePut_fold_length (ops : List (String × Canvas)) : ∀ m : Cache,
    m.length ≤ MAX_CACHE_SIZE →
    (ops.foldl (fun c p => cachePut p.1 p.2 c) m).length ≤ MAX_CACHE_SIZE := by
  induction ops with
  | nil => intro m h; exact h
  | cons p ops ih =>
      intro m h
      exact ih (cachePut p.1 p.2 m) (cachePut_length_le m p.1 p.2 h)

/-- C1: after every sequence of puts starting from the empty cache the cache
holds at most `MAX_CACHE_SIZE` = 10 entries; a single put on a cache within
the bound keeps the bound; when a fresh key overflows a full cache the single
removed entry is the least-recently-inserted one (the head of the insertion
order) and the new entry goes to the back; a cache hit in `generate` leaves
the cache untouched; and twelve puts of pairwise-distinct keys starting from
the empty cache leave exactly the ten most recently inserted entries in
insertion order. -/
theorem c1_cache_fifo (m : Cache) (k : String) (v : Canvas)
    (r : Except String Canvas) (s : AppState) :
    (∀ ops : List (String × Canvas),
        (ops.foldl (fun c p => cachePut p.1 p.2 c) ([] : Cache)).length
          ≤ MAX_CACHE_SIZE)
    ∧ (m.length ≤ MAX_CACHE_SIZE → (cachePut k v m).length ≤ MAX_CACHE_SIZE)
    ∧ (mapHas k m = false → m.length = MAX_CACHE_SIZE →
        cachePut k v m = m.tail ++ [(k, v)])
    ∧ (s.generating = false → mapHas (getConfigHash s.fields) s.cache = true →
        (generate r s).cache = s.cache)
    ∧ (["a", "b", "c", "d", "e", "f", "g", "h", "i", "j", "k", "l"].enum.foldl
          (fun c p => cachePut p.2 { width := p.1, height := p.1 } c) ([] : Cache)
        = (["a", "b", "c", "d", "e", "f", "g", "h", "i", "j", "k", "l"].enum.drop 2).map
            (fun p => (p.2, { width := p.1, height := p.1 }))) :=
  ⟨fun ops => cachePut_fold_length ops [] (by decide),
   cachePut_length_le m k v,
   fun hk hlen => cachePut_overflow m k v hk hlen,
   fun hg hh => generate_hit_cache_eq r s hg hh,
   by decide⟩

/-- Witness for C1 at concrete inputs: a full ten-entry cache accepts a fresh
key, stays at ten entries, and drops exactly its oldest entry. -/
theorem c1_cache_fifo_witness :
    (cachePut "k" { width := 11, height := 11 }
        ((List.range 10).map (fun i => (toString i, { width := i, height := i })))).length
      ≤ MAX_CACHE_SIZE
    ∧ cachePut "k" { width := 11, height := 11 }
        ((List.range 10).map (fun i => (toString i, { width := i, height := i })))
      = ((List.range 10).map (fun i => (toString i, { width := i, height := i }))).tail
          ++ [("k", { width := 11, height := 11 })] := by
  constructor
  · exact (c1_cache_fifo ((List.range 10).map (fun i => (toString i, { width := i, height := i })))
      "k" { width := 11, height := 11 } (Except.error "") initState).2.1 (by decide)
  · exact (c1_cache_fifo ((List.range 10).map (fun i => (toString i, { width := i, height := i })))
      "k" { width := 11, height := 11 } (Except.error "") initState).2.2.1 (by decide) (by decide)

/-! ## C3: resource release on eviction (differs between the two revisions) -/

/-- Counterexample to C3 as stated: in the second `generate` (main.js lines
1487-1491) the overflowing put on a full cache of 400-by-400 canvases drops
the oldest entry's canvas with its dimensions intact, not zeroed. -/
theorem c3_eviction_release_counterexample :
    ((cachePutDrop "k" { width := 1, height := 1 }
        ((List.range 10).map (fun i => (toString i, { width := 400, height := 400 })))).1
      = some { width := 400, height := 400 })
    ∧ ¬ ((cachePutDrop "k" { width := 1, height := 1 }
        ((List.range 10).map (fun i => (toString i, { width := 400, height := 400 })))).1
      = some { width := 0, height := 0 }) := by decide

/-- C3 amended: both revisions leave the same cache contents after an
overflowing put, but only the first `generate` (main.js lines 699-710) zeroes
the evicted canvas's width and height before the delete; the second revision
(lines 1487-1491) drops the oldest entry's canvas exactly as stored, with no
release. -/
theorem c3_eviction_release (m : Cache) (k : String) (v : Canvas) :
    (cachePutRelease k v m).2 = cachePut k v m
    ∧ (cachePutDrop k v m).2 = cachePut k v m
    ∧ (∀ c, (cachePutRelease k v m).1 = some c → c.width = 0 ∧ c.height = 0)
    ∧ (mapHas k m = false → m.length = MAX_CACHE_SIZE →
        (cachePutDrop k v m).1 = m.head?.map (fun p => p.2)) := by
  refine ⟨?_, ?_, ?_, ?_⟩
  · rw [cachePut_def]
    unfold cachePutRelease
    by_cases hb : MAX_CACHE_SIZE < (mapSet k v m).length <;>
      cases hm : firstKey (mapSet k v m) <;> simp [hb, hm]
  · rw [cachePut_def]
    unfold cachePutDrop
    by_cases hb : MAX_CACHE_SIZE < (mapSet k v m).length <;>
      cases hm : firstKey (mapSet k v m) <;> simp [hb, hm]
  · intro c hc
    unfold cachePutRelease at hc
    by_cases hb : MAX_CACHE_SIZE < (mapSet k v m).length <;>
      cases hm : firstKey (mapSet k v m) <;>
        simp [hb, hm] at hc
    obtain ⟨-, rfl⟩ := hc
    exact ⟨rfl, rfl⟩
  · intro hk hlen
    have hset : mapSet k v m = m ++ [(k, v)] := by simp [mapSet, hk]
    unfold cachePutDrop
    rw [hset]
    have hlt : MAX_CACHE_SIZE < (m ++ [(k, v)]).length := by simp [hlen]
    simp only [hlt, if_true]
    cases m with
    | nil => simp [MAX_CACHE_SIZE] at hlen
    | cons a t => simp [firstKey, mapGet]

/-- Witness for C3 amended at a concrete overflowing put: the first revision
yields the same cache as the shared put, and the second revision hands back
the evicted canvas unreleased, exactly as stored. -/
theorem c3_eviction_release_witness :
    ((cachePutRelease "k" { width := 1, height := 1 }
        ((List.range 10).map (fun i => (toString i, { width := 7, height := 7 })))).2
      = cachePut "k" { width := 1, height := 1 }
          ((List.range 10).map (fun i => (toString i, { width := 7, height := 7 }))))
    ∧ ((cachePutDrop "k" { width := 1, height := 1 }
        ((List.range 10).map (fun i => (toString i, { width := 7, height := 7 })))).1
      = some { width := 7, height := 7 }) := by
  have h := c3_eviction_release
    ((List.range 10).map (fun i => (toString i, { width := 7, height := 7 })))
    "k" { width := 1, height := 1 }
  refine ⟨h.1, ?_⟩
  rw [h.2.2.2 (by decide) (by decide)]
  decide

/-! ## C4: orchestrator error handling -/

/-- C4: starting outside the Generating phase, `generate` always returns with
the generating flag false (the `finally` clears it on the success and the
failure path alike), and every exception from the guarded body on a cache miss
surfaces as the user-visible error status carrying
`err.message || 'QR generation failed'`. -/
theorem c4_generate_error_handling (r : Except String Canvas) (s : AppState)
    (hg : s.generating = false) :
    (generate r s).generating = false
    ∧ (∀ msg, r = Except.error msg →
        mapHas (getConfigHash s.fields) s.cache = false →
        (generate r s).status
          = Status.error (if msg = "" then "QR generation failed" else msg)) := by
  constructor
  · unfold generate
    cases r <;>
      by_cases hh : mapHas (getConfigHash s.fields) s.cache <;> simp [hg, hh]
  · intro msg hr hh
    subst hr
    simp [generate, hg, hh]

/-- Witness for C4: a failing body on the fresh initial state leaves the flag
cleared and shows the error text. -/
theorem c4_generate_error_handling_witness :
    (generate (Except.error "boom") initState).generating = false
    ∧ (generate (Except.error "boom") initState).status = Status.error "boom" := by
  have h := c4_generate_error_handling (Except.error "boom") initState rfl
  refine ⟨h.1, ?_⟩
  have h2 := h.2 "boom" rfl rfl
  rwa [if_neg (by decide)] at h2

/-! ## C8: debounce -/

theorem processEvents_pending (rest : List (Nat × ConfigFields)) :
    ∀ te fe, List.Chain' (fun a b => b.1 < a.1 + DEBOUNCE_DELAY) ((te, fe) :: rest) →
      processEvents (some (te + DEBOUNCE_DELAY)) fe rest
        = [((rest.getLastD (te, fe)).1 + DEBOUNCE_DELAY, (rest.getLastD (te, fe)).2)] := by
  induction rest with
  | nil => intro te fe _; rfl
  | cons b r ih =>
      obtain ⟨tb, fb⟩ := b
      intro te fe h
      obtain ⟨hlt, hch⟩ := List.chain'_cons.mp h
      have hnot : ¬ te + DEBOUNCE_DELAY ≤ tb := by simp at hlt; omega
      have step : processEvents (some (te + DEBOUNCE_DELAY)) fe ((tb, fb) :: r)
          = processEvents (some (tb + DEBOUNCE_DELAY)) fb r := by
        simp [processEvents, hnot]
      rw [step, List.getLastD_cons]
      exact ih tb fb hch

/-- C8: for a burst of triggering input events in which each event arrives
within the 200ms window of its predecessor, every event cancels the pending
timer and re-arms it (only a single timer slot exists), so that replaying the
burst from the idle state yields exactly one generation call, scheduled 200ms
after the last event and reading the field values as of that last event. -/
theorem c8_debounce_single_call (f0 : ConfigFields) (te : Nat) (fe : ConfigFields)
    (rest : List (Nat × ConfigFields))
    (h : List.Chain' (fun a b => b.1 < a.1 + DEBOUNCE_DELAY) ((te, fe) :: rest)) :
    processEvents none f0 ((te, fe) :: rest)
      = [((rest.getLastD (te, fe)).1 + DEBOUNCE_DELAY, (rest.getLastD (te, fe)).2)] :=
  processEvents_pending rest te fe h

/-- Witness for C8: five events, 10ms apart, with changing content fields;
one generation call happens at 240ms with the last event's fields. -/
theorem c8_debounce_single_call_witness :
    processEvents none clearedFields
        [(0, { clearedFields with content := "a" }),
         (10, { clearedFields with content := "ab" }),
         (20, { clearedFields with content := "abc" }),
         (30, { clearedFields with content := "abcd" }),
         (40, { clearedFields with content := "abcde" })]
      = [(240, { clearedFields with content := "abcde" })] := by
  have h := c8_debounce_single_call clearedFields 0 { clearedFields with content := "a" }
    [(10, { clearedFields with content := "ab" }),
     (20, { clearedFields with content := "abc" }),
     (30, { clearedFields with content := "abcd" }),
     (40, { clearedFields with content := "abcde" })]
    (by simp [List.chain'_cons, DEBOUNCE_DELAY])
  simpa [List.getLastD, DEBOUNCE_DELAY] using h

/-! ## C9: what clears the cache -/

/-- Counterexample to C9 as stated: loading a logo does not leave the cache
entries in place; the second `setupLogoUpload` (main.js lines 1355-1368)
clears the render cache as part of its load handler. -/
theorem c9_cache_clearing_counterexample :
    ¬ ((logoLoad { src := "logo.png", naturalWidth := 10, naturalHeight := 10 }
          { fields := clearedFields,
            cache := [("h", { width := 1, height := 1 })],
            generating := false, status := Status.idle, displayed := none }).cache
        = [("h", { width := 1, height := 1 })]) := by decide

/-- C9 amended: the render cache is emptied by the explicit clear-all
operation, by page-level teardown, and additionally by loading a logo (the
load handler calls `state.cache.clear()` so stale present-logo renders cannot
be served); clearing the logo leaves the cache untouched, so apart from these
operations entries leave the cache only through FIFO overflow eviction. -/
theorem c9_cache_clearing (img : Image) (s : AppState) :
    (logoLoad img s).cache = []
    ∧ (clearLogo s).cache = s.cache
    ∧ (clearAllSettings s).cache = []
    ∧ (cleanup s).cache = [] :=
  ⟨rfl, rfl, rfl, rfl⟩

/-! ## C2: the config hash determines and is determined by the fields

`getConfigHash` serializes the config by `JSON.stringify`, so two configs get
the same key exactly when every serialized field agrees. The interesting
direction is injectivity; it is proved by exhibiting a decoder that recovers
every field from the hash string. -/

/-- Value of a lowercase hexadecimal digit. -/
def hexVal (c : Char) : Nat := if c.toNat ≤ 57 then c.toNat - 48 else c.toNat - 87

/-- Decoder for a JSON string literal body: consumes characters up to the
closing unescaped quote, undoing `jsonEscapeChar`; returns the decoded
characters and the input after the closing quote. -/
def scanStr : List Char → Option (List Char × List Char)
  | [] => none
  | c :: cs =>
    if c = '"' then some ([], cs)
    else if c = '\\' then
      match cs with
      | [] => none
      | e :: cs1 =>
        if e = '"' then (scanStr cs1).map (fun p => ('"' :: p.1, p.2))
        else if e = '\\' then (scanStr cs1).map (fun p => ('\\' :: p.1, p.2))
        else if e = 'n' then (scanStr cs1).map (fun p => ('\n' :: p.1, p.2))
        else if e = 'r' then (scanStr cs1).map (fun p => ('\r' :: p.1, p.2))
        else if e = 't' then (scanStr cs1).map (fun p => ('\t' :: p.1, p.2))
        else if e = 'b' then (scanStr cs1).map (fun p => (Char.ofNat 8 :: p.1, p.2))
        else if e = 'f' then (scanStr cs1).map (fun p => (Char.ofNat 12 :: p.1, p.2))
        else if e = 'u' then
          match cs1 with
          | h1 :: h2 :: h3 :: h4 :: cs2 =>
              (scanStr cs2).map (fun p =>
                (Char.ofNat (((hexVal h1 * 16 + hexVal h2) * 16 + hexVal h3) * 16
                    + hexVal h4) :: p.1, p.2))
          | _ => none
        else none
    else (scanStr cs).map (fun p => (c :: p.1, p.2))

/-- Match a fixed literal prefix, returning what follows it. -/
def dropPrefixChars : List Char → List Char → Option (List Char)
  | [], cs => some cs
  | _ :: _, [] => none
  | p :: ps, c :: cs => if c = p then dropPrefixChars ps cs else none

/-- One field of the serialized object: the fixed literal up to and including
the value's opening quote, then the JSON string body. -/
def expectField (lit : String) (cs : List Char) : Option (List Char × List Char) :=
  (dropPrefixChars lit.data cs).bind scanStr

/-- Full decoder for `getConfigHash` output: recovers the nine serialized
field values in order. -/
def decodeHash (cs : List Char) : Option (List (List Char)) := do
  let (content, cs) ← expectField "\x7b\"content\":\"" cs
  let (size, cs) ← expectField ",\"size\":\"" cs
  let (fg, cs) ← expectField ",\"fg\":\"" cs
  let (bg, cs) ← expectField ",\"bg\":\"" cs
  let (ec, cs) ← expectField ",\"ec\":\"" cs
  let (margin, cs) ← expectField ",\"margin\":\"" cs
  let (style, cs) ← expectField ",\"style\":\"" cs
  let (logoPercent, cs) ← expectField ",\"logoPercent\":\"" cs
  let (logo, cs) ← expectField ",\"logo\":\"" cs
  if cs = ['\x7d'] then
    some [content, size, fg, bg, ec, margin, style, logoPercent, logo]
  else none

theorem hexVal_hexDigitChar : ∀ n < 16, hexVal (hexDigitChar n) = n := by decide

theorem jsonEncodeList_cons (c : Char) (cs : List Char) :
    jsonEncodeList (c :: cs) = jsonEscapeChar c ++ jsonEncodeList cs := by
  simp [jsonEncodeList]

theorem scanStr_quote (cs : List Char) : scanStr ('"' :: cs) = some ([], cs) := by
  rw [scanStr.eq_def]
  simp

theorem scanStr_esc_quote (cs : List Char) :
    scanStr ('\\' :: '"' :: cs) = (scanStr cs).map (fun p => ('"' :: p.1, p.2)) := by
  rw [scanStr.eq_def]
  simp

theorem scanStr_esc_backslash (cs : List Char) :
    scanStr ('\\' :: '\\' :: cs) = (scanStr cs).map (fun p => ('\\' :: p.1, p.2)) := by
  rw [scanStr.eq_def]
  simp

theorem scanStr_esc_n (cs : List Char) :
    scanStr ('\\' :: 'n' :: cs) = (scanStr cs).map (fun p => ('\n' :: p.1, p.2)) := by
  rw [scanStr.eq_def]
  simp

theorem scanStr_esc_r (cs : List Char) :
    scanStr ('\\' :: 'r' :: cs) = (scanStr cs).map (fun p => ('\r' :: p.1, p.2)) := by
  rw [scanStr.eq_def]
  simp

theorem scanStr_esc_t (cs : List Char) :
    scanStr ('\\' :: 't' :: cs) = (scanStr cs).map (fun p => ('\t' :: p.1, p.2)) := by
  rw [scanStr.eq_def]
  simp

theorem scanStr_esc_b (cs : List Char) :
    scanStr ('\\' :: 'b' :: cs)
      = (scanStr cs).map (fun p => (Char.ofNat 8 :: p.1, p.2)) := by
  rw [scanStr.eq_def]
  simp

theorem scanStr_esc_f (cs : List Char) :
    scanStr ('\\' :: 'f' :: cs)
      = (scanStr cs).map (fun p => (Char.ofNat 12 :: p.1, p.2)) := by
  rw [scanStr.eq_def]
  simp

theorem scanStr_esc_u (h1 h2 h3 h4 : Char) (cs : List Char) :
    scanStr ('\\' :: 'u' :: h1 :: h2 :: h3 :: h4 :: cs)
      = (scanStr cs).map (fun p =>
          (Char.ofNat (((hexVal h1 * 16 + hexVal h2) * 16 + hexVal h3) * 16
              + hexVal h4) :: p.1, p.2)) := by
  rw [scanStr.eq_def]
  simp

theorem scanStr_plain (c : Char) (cs : List Char) (h1 : ¬ c = '"') (h2 : ¬ c = '\\') :
    scanStr (c :: cs) = (scanStr cs).map (fun p => (c :: p.1, p.2)) := by
  rw [scanStr.eq_def]
  simp [h1, h2]

theorem scanStr_encode (s : List Char) : ∀ r : List Char,
    scanStr (jsonEncodeList s ++ '"' :: r) = some (s, r) := by
  induction s with
  | nil => intro r; simp [jsonEncodeList, scanStr_quote]
  | cons c cs ih =>
      intro r
      rw [jsonEncodeList_cons, List.append_assoc]
      by_cases h1 : c = '"'
      · subst h1
        have he : jsonEscapeChar '"' = ['\\', '"'] := rfl
        rw [he]
        simp [scanStr_esc_quote, ih]
      by_cases h2 : c = '\\'
      · subst h2
        have he : jsonEscapeChar '\\' = ['\\', '\\'] := rfl
        rw [he]
        simp [scanStr_esc_backslash, ih]
      by_cases h3 : c = '\n'
      · subst h3
        have he : jsonEscapeChar '\n' = ['\\', 'n'] := rfl
        rw [he]
        simp [scanStr_esc_n, ih]
      by_cases h4 : c = '\r'
      · subst h4
        have he : jsonEscapeChar '\r' = ['\\', 'r'] := rfl
        rw [he]
        simp [scanStr_esc_r, ih]
      by_cases h5 : c = '\t'
      · subst h5
        have he : jsonEscapeChar '\t' = ['\\', 't'] := rfl
        rw [he]
        simp [scanStr_esc_t, ih]
      by_cases h6 : c = Char.ofNat 8
      · subst h6
        have he : jsonEscapeChar (Char.ofNat 8) = ['\\', 'b'] := rfl
        rw [he]
        simp [scanStr_esc_b, ih]
      by_cases h7 : c = Char.ofNat 12
      · subst h7
        have he : jsonEscapeChar (Char.ofNat 12) = ['\\', 'f'] := rfl
        rw [he]
        simp [scanStr_esc_f, ih]
      by_cases h8 : c.toNat < 32
      · have he : jsonEscapeChar c
            = ['\\', 'u', '0', '0', hexDigitChar (c.toNat / 16),
               hexDigitChar (c.toNat % 16)] := by
          simp [jsonEscapeChar, h1, h2, h3, h4, h5, h6, h7, h8]
        rw [he]
        simp only [List.cons_append, List.nil_append, scanStr_esc_u, ih,
          Option.map_some]
        have hv0 : hexVal '0' = 0 := rfl
        have hdiv : hexVal (hexDigitChar (c.toNat / 16)) = c.toNat / 16 :=
          hexVal_hexDigitChar _ (by omega)
        have hmod : hexVal (hexDigitChar (c.toNat % 16)) = c.toNat % 16 :=
          hexVal_hexDigitChar _ (by omega)
        rw [hv0, hdiv, hmod]
        have hn : c.toNat / 16 * 16 + c.toNat % 16 = c.toNat := by omega
        simp only [Nat.zero_mul, Nat.zero_add, hn, Char.ofNat_toNat]
        rfl
      · have he : jsonEscapeChar c = [c] := by
          simp [jsonEscapeChar, h1, h2, h3, h4, h5, h6, h7, h8]
        rw [he]
        simp [scanStr_plain c _ h1 h2, ih]

theorem dropPrefixChars_append (p : List Char) : ∀ r : List Char,
    dropPrefixChars p (p ++ r) = some r := by
  induction p with
  | nil => intro r; rfl
  | cons a ps ih => intro r; simp [dropPrefixChars, ih]

theorem expectField_encode (litfull : String) (pre : List Char)
    (hl : litfull.data = pre ++ ['"']) (s : String) (r : List Char) :
    expectField litfull (pre ++ ('"' :: (jsonEncodeList s.data ++ ('"' :: r))))
      = some (s.data, r) := by
  unfold expectField
  rw [hl]
  have hs : pre ++ ('"' :: (jsonEncodeList s.data ++ ('"' :: r)))
      = (pre ++ ['"']) ++ (jsonEncodeList s.data ++ '"' :: r) := by
    simp
  rw [hs, dropPrefixChars_append]
  simpa using scanStr_encode s.data r


theorem data_mk (l : List Char) : (String.mk l).data = l := rfl

theorem optBind_some {α β : Type} (a : α) (g : α → Option β) :
    (some a : Option α) >>= g = g a := rfl

theorem jsonQuote_data (s : String) :
    (jsonQuote s).data = '"' :: jsonEncodeList s.data ++ ['"'] := by
  have h1 : ("\"" : String).data = ['"'] := rfl
  simp [jsonQuote, String.data_append, data_mk, h1]

def litContent : List Char := ("\x7b\"content\":" : String).data
def litSize : List Char := (",\"size\":" : String).data
def litFg : List Char := (",\"fg\":" : String).data
def litBg : List Char := (",\"bg\":" : String).data
def litEc : List Char := (",\"ec\":" : String).data
def litMargin : List Char := (",\"margin\":" : String).data
def litStyle : List Char := (",\"style\":" : String).data
def litLogoPercent : List Char := (",\"logoPercent\":" : String).data
def litLogo : List Char := (",\"logo\":" : String).data
def litEnd : List Char := ("\x7d" : String).data

theorem getConfigHash_data (f : ConfigFields) :
    (getConfigHash f).data
      = litContent ++ ('"' :: (jsonEncodeList f.content.data ++ ('"' ::
        (litSize ++ ('"' :: (jsonEncodeList f.size.data ++ ('"' :: (litFg ++
        ('"' :: (jsonEncodeList f.fg.data ++ ('"' :: (litBg ++ ('"' ::
        (jsonEncodeList f.bg.data ++ ('"' :: (litEc ++ ('"' :: (jsonEncodeList
        f.ec.data ++ ('"' :: (litMargin ++ ('"' :: (jsonEncodeList
        f.margin.data ++ ('"' :: (litStyle ++ ('"' :: (jsonEncodeList
        f.style.data ++ ('"' :: (litLogoPercent ++ ('"' :: (jsonEncodeList
        f.logoPercent.data ++ ('"' :: (litLogo ++ ('"' :: (jsonEncodeList (if
        f.logo.isSome then "present" else "absent").data ++ ('"' ::
        (litEnd)))))))))))))))))))))))))))))))))))) := by
  simp [getConfigHash, jsonQuote_data, String.data_append, List.append_assoc,
    litContent, litSize, litFg, litBg, litEc, litMargin, litStyle,
    litLogoPercent, litLogo, litEnd]

theorem decodeHash_encode (f : ConfigFields) :
    decodeHash (getConfigHash f).data
      = some [f.content.data, f.size.data, f.fg.data, f.bg.data, f.ec.data,
              f.margin.data, f.style.data, f.logoPercent.data,
              (if f.logo.isSome then "present" else "absent").data] := by
  have hl1 : ("\x7b\"content\":\"" : String).data = litContent ++ ['"'] := rfl
  have hl2 : (",\"size\":\"" : String).data = litSize ++ ['"'] := rfl
  have hl3 : (",\"fg\":\"" : String).data = litFg ++ ['"'] := rfl
  have hl4 : (",\"bg\":\"" : String).data = litBg ++ ['"'] := rfl
  have hl5 : (",\"ec\":\"" : String).data = litEc ++ ['"'] := rfl
  have hl6 : (",\"margin\":\"" : String).data = litMargin ++ ['"'] := rfl
  have hl7 : (",\"style\":\"" : String).data = litStyle ++ ['"'] := rfl
  have hl8 : (",\"logoPercent\":\"" : String).data = litLogoPercent ++ ['"'] := rfl
  have hl9 : (",\"logo\":\"" : String).data = litLogo ++ ['"'] := rfl
  rw [getConfigHash_data]
  unfold decodeHash
  rw [expectField_encode _ _ hl1]
  simp only [optBind_some]
  rw [expectField_encode _ _ hl2]
  simp only [optBind_some]
  rw [expectField_encode _ _ hl3]
  simp only [optBind_some]
  rw [expectField_encode _ _ hl4]
  simp only [optBind_some]
  rw [expectField_encode _ _ hl5]
  simp only [optBind_some]
  rw [expectField_encode _ _ hl6]
  simp only [optBind_some]
  rw [expectField_encode _ _ hl7]
  simp only [optBind_some]
  rw [expectField_encode _ _ hl8]
  simp only [optBind_some]
  rw [expectField_encode _ _ hl9]
  simp only [optBind_some]
  rfl

/-- C2: two generation configs receive the same cache key exactly when every
config field compares equal and the two agree on logo presence; the logo's
pixel content and dimensions never enter the key. -/
theorem c2_config_hash_key (f g : ConfigFields) :
    getConfigHash f = getConfigHash g
      ↔ (f.content = g.content ∧ f.size = g.size ∧ f.fg = g.fg ∧ f.bg = g.bg
         ∧ f.ec = g.ec ∧ f.margin = g.margin ∧ f.style = g.style
         ∧ f.logoPercent = g.logoPercent ∧ f.logo.isSome = g.logo.isSome) := by
  constructor
  · intro h
    have hd : decodeHash (getConfigHash f).data = decodeHash (getConfigHash g).data := by
      rw [h]
    rw [decodeHash_encode f, decodeHash_encode g] at hd
    simp only [Option.some.injEq, List.cons.injEq, and_true] at hd
    obtain ⟨e1, e2, e3, e4, e5, e6, e7, e8, e9⟩ := hd
    have e9' : (if f.logo.isSome then "present" else "absent")
        = (if g.logo.isSome then "present" else "absent") := String.ext e9
    refine ⟨String.ext e1, String.ext e2, String.ext e3, String.ext e4,
            String.ext e5, String.ext e6, String.ext e7, String.ext e8, ?_⟩
    cases hf : f.logo.isSome <;> cases hg : g.logo.isSome <;>
      rw [hf, hg] at e9' <;> simp at e9' ⊢
  · rintro ⟨e1, e2, e3, e4, e5, e6, e7, e8, e9⟩
    unfold getConfigHash
    rw [e1, e2, e3, e4, e5, e6, e7, e8, e9]

end QR
